import Mathlib

/-!
Shallow embedding of the task-management backend (todo-backend): the task
query/filter engine, pagination, sorting, assignment bookkeeping and the
soft-delete path, together with theorems checking the specification's claims
against these definitions.

Conventions of the embedding:
* MongoDB documents become Lean structures; collections become lists.
* UTC instants are modelled as integers (`Instant`); only their ordering
  matters to the code under study.
* Mongo/BSON `ObjectId`s and their string forms are collapsed into one
  identifier type (`String`): the code treats the two representations as
  interchangeable names for the same entity (it queries with
  `{"$in": [ObjectId(x), x]}`).
* A Mongo filter document becomes a Boolean predicate on a document; a dotted
  path comparison such as `{"deferredDetails.deferredTill": {"$lt": now}}`
  only matches documents where the path resolves, i.e. where
  `deferredDetails` is present (non-null).
* Python `None` becomes `Option.none`; Python string truthiness (`if team_id:`)
  is modelled explicitly (`truthy`), since the empty string is falsy.
-/

namespace Todo

/-- UTC instants; only their linear order is relevant. -/
abbrev Instant := Int

/-- Python truthiness of an optional string: `None` and `""` are falsy. -/
def truthy : Option String → Bool
  | none => false
  | some s => s ≠ ""

/-- The `deferredDetails` sub-document of a task (`DeferredDetailsModel`);
only `deferredTill` is consulted by the filters under study. -/
structure DeferredDetails where
  deferredTill : Instant
deriving DecidableEq, Repr

namespace TaskStatus

/-- Modelled from the spec: `todo.constants.task.TaskStatus` is not under
`src/`; its string values are those the API documents for the status filter
("TODO", "IN_PROGRESS", "DONE", "BLOCKED", "DEFERRED"). -/
def TODO : String := "TODO"

/-- The `DONE` status value. -/
def DONE : String := "DONE"

/-- The `DEFERRED` status value. -/
def DEFERRED : String := "DEFERRED"

/-- The `IN_PROGRESS` status value. -/
def IN_PROGRESS : String := "IN_PROGRESS"

/-- The `BLOCKED` status value. -/
def BLOCKED : String := "BLOCKED"

end TaskStatus

/-- A task document (`TaskModel`), restricted to the fields the repository
and service code under study reads or writes. -/
structure Task where
  id : String := ""
  displayId : Option String := none
  title : String := ""
  description : Option String := none
  priority : Option String := none
  status : String := TaskStatus.TODO
  isAcknowledged : Bool := false
  isDeleted : Bool := false
  deferredDetails : Option DeferredDetails := none
  dueAt : Option Instant := none
  startedAt : Option Instant := none
  createdAt : Instant := 0
  updatedAt : Option Instant := none
  createdBy : String := ""
  updatedBy : Option String := none
deriving DecidableEq, Repr

/-- Mongo semantics of `{"deferredDetails.deferredTill": {"$lt": now}}`: the
dotted path resolves only when `deferredDetails` is present. -/
def deferredTillLt (t : Task) (now : Instant) : Bool :=
  match t.deferredDetails with
  | some d => d.deferredTill < now
  | none => false

/-- Mongo semantics of `{"deferredDetails.deferredTill": {"$gt": now}}`. -/
def deferredTillGt (t : Task) (now : Instant) : Bool :=
  match t.deferredDetails with
  | some d => now < d.deferredTill
  | none => false

/-- `TaskRepository._build_status_filter`, as the predicate (on a task, at
instant `now`) denoted by the filter document the Python method returns.
`statusFilter = none` is the absent (default) filter. -/
def buildStatusFilter (statusFilter : Option String) (now : Instant) (t : Task) : Bool :=
  if statusFilter = some TaskStatus.DEFERRED then
    t.deferredDetails.isSome && deferredTillGt t now
  else if statusFilter = some TaskStatus.DONE then
    t.deferredDetails.isNone || deferredTillLt t now
  else
    (t.status ≠ TaskStatus.DONE : Bool) && (t.deferredDetails.isNone || deferredTillLt t now)

/-- The `LinksData` pagination-links DTO. -/
structure LinksData where
  next : Option String := none
  prev : Option String := none
deriving DecidableEq, Repr

namespace TaskService

/-- `TaskService.build_page_url`; the route prefix resolved by the web
framework (`reverse_lazy("tasks")`) is abstracted to the literal route, and
`urlencode` is the concatenation shown. -/
def build_page_url (page limit : Nat) (sort_by order : String) : String :=
  "/tasks?page=" ++ toString page ++ "&limit=" ++ toString limit ++
    "&sort_by=" ++ sort_by ++ "&order=" ++ order

/-- `TaskService._build_pagination_links`: `math.ceil(total_count / limit)`
is for naturals `(total_count + limit - 1) / limit` (the caller has validated
`limit ≥ 1`). -/
def _build_pagination_links (page limit total_count : Nat) (sort_by order : String) :
    LinksData :=
  let total_pages := (total_count + limit - 1) / limit
  { next := if page < total_pages then some (build_page_url (page + 1) limit sort_by order)
            else none
    prev := if 1 < page then some (build_page_url (page - 1) limit sort_by order)
            else none }

end TaskService

/-- A task-assignment document (`TaskAssignmentModel`), restricted to the
fields the code under study reads or writes. -/
structure TaskAssignment where
  task_id : String := ""
  assignee_id : String := ""
  user_type : String := "user"
  team_id : Option String := none
  is_active : Bool := true
  created_by : String := ""
  updated_by : Option String := none
deriving DecidableEq, Repr

/-- An audit-log document (`AuditLogModel`), restricted to the fields written
by the assignment service. -/
structure AuditLog where
  task_id : String := ""
  team_id : Option String := none
  action : String := ""
  performed_by : String := ""
deriving DecidableEq, Repr

/-- A `user_team_details` membership document: the user belongs to the team. -/
structure UserTeamDetail where
  user_id : String
  team_id : String
deriving DecidableEq, Repr

/-- A team document, restricted to the fields queried by
`_get_assigned_task_ids_for_user` (`_id`, `is_deleted`, `poc_id`). -/
structure Team where
  id : String
  poc_id : String
  is_deleted : Bool := false
deriving DecidableEq, Repr

/-- The document-store state: the collections touched by the code under
study, plus the warning log written on dual-write failure and the
`counters` document used for display IDs. -/
structure Db where
  tasks : List Task := []
  assignments : List TaskAssignment := []
  userTeams : List UserTeamDetail := []
  teams : List Team := []
  auditLogs : List AuditLog := []
  counterSeq : Option Nat := none
  log : List String := []
deriving DecidableEq, Repr

namespace TaskAssignmentRepository

/-- Modelled from the spec: `TaskAssignmentRepository.get_by_assignee_id` is
not under `src/`. Per the spec an assignment is "the current active assignee
(user or team) for a task", so the lookup returns the assignee's active
assignment documents of the requested assignee type. -/
def get_by_assignee_id (db : Db) (assignee_id user_type : String) : List TaskAssignment :=
  db.assignments.filter fun a =>
    a.assignee_id == assignee_id && a.user_type == user_type && a.is_active

/-- Modelled from the spec: `TaskAssignmentRepository.get_by_task_id` is not
under `src/`. It returns the task's current active assignment ("the current
active assignee (user or team) for a task, stored separately from the task
record"), if any. -/
def get_by_task_id (db : Db) (task_id : String) : Option TaskAssignment :=
  db.assignments.find? fun a => a.task_id == task_id && a.is_active

/-- Modelled from the spec: `TaskAssignmentRepository.update_assignment` is
not under `src/`. Since an assignment record holds "the current active
assignee (user or team) for a task", updating re-points the task's active
assignment record in place to the new assignee, recording who updated it;
it returns the updated record, or `none` when the task has no active
assignment. -/
def update_assignment (db : Db) (task_id assignee_id user_type user_id : String) :
    Db × Option TaskAssignment :=
  match db.assignments.find? (fun a => a.task_id == task_id && a.is_active) with
  | none => (db, none)
  | some _ =>
    let upd := fun (a : TaskAssignment) =>
      if a.task_id == task_id && a.is_active then
        { a with assignee_id := assignee_id, user_type := user_type,
                 updated_by := some user_id }
      else a
    let db' := { db with assignments := db.assignments.map upd }
    (db', db'.assignments.find? fun a => a.task_id == task_id && a.is_active)

/-- Modelled from the spec: `TaskAssignmentRepository.create` is not under
`src/`. It inserts a new assignment document into the collection and returns
it. -/
def create (db : Db) (a : TaskAssignment) : Db × TaskAssignment :=
  ({ db with assignments := db.assignments ++ [a] }, a)

/-- Modelled from the spec: `TaskAssignmentRepository.deactivate_by_task_id`
is not under `src/`. Deleting a task "deactivates the task's assignment": the
task's active assignment documents get `is_active := false`, recording who
performed the update. -/
def deactivate_by_task_id (db : Db) (task_id user_id : String) : Db :=
  { db with assignments := db.assignments.map fun a =>
      if a.task_id == task_id && a.is_active then
        { a with is_active := false, updated_by := some user_id }
      else a }

end TaskAssignmentRepository

/-- Modelled from the spec: `todo.constants.task.SORT_FIELD_UPDATED_AT` is
not under `src/`; the updatedAt sort-field marker. -/
def SORT_FIELD_UPDATED_AT : String := "updatedAt"

/-- Modelled from the spec: `todo.constants.task.SORT_ORDER_DESC` is not
under `src/`; the descending sort-order marker. -/
def SORT_ORDER_DESC : String := "desc"

/-- The exceptions `TaskRepository.delete_by_id` can raise. -/
inductive DeleteError where
  | taskNotFound
  | permissionDenied
deriving DecidableEq, Repr

namespace TaskRepository

/-- `TaskRepository._get_assigned_task_ids_for_user`: the task IDs the user
can see through assignments — direct active user-type assignments, plus
active team-type assignments of the non-deleted teams the user belongs to
and is point-of-contact of. -/
def _get_assigned_task_ids_for_user (db : Db) (user_id : String) : List String :=
  let direct_task_ids :=
    (TaskAssignmentRepository.get_by_assignee_id db user_id "user").map (·.task_id)
  let team_ids := (db.userTeams.filter fun ut => ut.user_id == user_id).map (·.team_id)
  let team_task_ids :=
    if team_ids.isEmpty then []
    else
      let poc_team_ids :=
        ((db.teams.filter fun tm =>
            team_ids.contains tm.id && !tm.is_deleted && tm.poc_id == user_id).map (·.id))
      if poc_team_ids.isEmpty then []
      else
        ((db.assignments.filter fun a =>
            poc_team_ids.contains a.assignee_id && a.user_type == "team" && a.is_active).map
          (·.task_id))
  direct_task_ids ++ team_task_ids

/-- `TaskRepository._get_team_task_ids`: distinct task IDs of the team's
active assignments (`list(set(...))`). -/
def _get_team_task_ids (db : Db) (team_id : String) : List String :=
  ((db.assignments.filter fun a => a.team_id == some team_id && a.is_active).map
    (·.task_id)).dedup

/-- `TaskRepository._get_task_ids_for_assignees`: distinct active task IDs of
the given user-type assignees, optionally scoped to the team. ObjectId and
string forms of an identifier are collapsed into one identifier type. -/
def _get_task_ids_for_assignees (db : Db) (assignee_ids : List String)
    (team_id : Option String) : List String :=
  if assignee_ids.isEmpty then []
  else
    ((db.assignments.filter fun a =>
        assignee_ids.contains a.assignee_id && a.user_type == "user" && a.is_active
          && (match team_id with
              | some tid => a.team_id == some tid
              | none => true)).map (·.task_id)).dedup

/-- The compound `$and` filter that `TaskRepository.list` (and `count`)
builds from the status filter and the user/team/assignee scopes, as the
predicate it denotes; `none` models the early `return []` when a required
ID scope resolves to no tasks. The pair's Boolean is the local
`team_scope_applied` flag. -/
def listQueryFilter (db : Db) (user_id team_id : Option String)
    (status_filter : Option String) (assignee_ids : List String) (now : Instant) :
    Option (Task → Bool) :=
  let base := buildStatusFilter status_filter now
  let scopeRes : Option ((Task → Bool) × Bool) :=
    if !assignee_ids.isEmpty then
      let assignee_task_ids := _get_task_ids_for_assignees db assignee_ids team_id
      if assignee_task_ids.isEmpty then none
      else some (fun t => assignee_task_ids.contains t.id, truthy team_id)
    else if truthy team_id then
      let all_team_task_ids := _get_team_task_ids db (team_id.getD "")
      if all_team_task_ids.isEmpty then none
      else some (fun t => all_team_task_ids.contains t.id, true)
    else some (fun _ => true, false)
  match scopeRes with
  | none => none
  | some (scopeFilter, team_scope_applied) =>
    let userFilter : Task → Bool :=
      if truthy user_id && !team_scope_applied then
        let assigned_task_ids := _get_assigned_task_ids_for_user db (user_id.getD "")
        if assigned_task_ids.isEmpty then
          fun t => t.createdBy == user_id.getD ""
        else
          fun t => t.createdBy == user_id.getD "" || assigned_task_ids.contains t.id
      else fun _ => true
    some fun t => base t && scopeFilter t && userFilter t

/-- The `lastActivity` value the aggregation pipeline adds to each document:
`$ifNull: [$updatedAt, $createdAt]` — `createdAt` stands in for tasks never
updated. -/
def lastActivity (t : Task) : Instant := t.updatedAt.getD t.createdAt

/-- The `$sort {lastActivity: direction}` comparator: descending when the
order is `desc`, ascending otherwise. -/
def lastActivityLe (order : String) : Task → Task → Bool :=
  if order == SORT_ORDER_DESC then fun a b => lastActivity b ≤ lastActivity a
  else fun a b => lastActivity a ≤ lastActivity b

/-- `TaskRepository.list` in its `sort_by == SORT_FIELD_UPDATED_AT` branch:
the aggregation pipeline `$match` → `$addFields lastActivity` → `$sort` →
`$skip (page-1)*limit` → `$limit limit`. The document store leaves the order
of ties unspecified; `mergeSort` realizes one admissible order. -/
def listUpdatedAtSorted (db : Db) (page limit : Nat) (order : String)
    (user_id team_id : Option String) (status_filter : Option String)
    (assignee_ids : List String) (now : Instant) : List Task :=
  match listQueryFilter db user_id team_id status_filter assignee_ids now with
  | none => []
  | some f =>
    (((db.tasks.filter f).mergeSort (lastActivityLe order)).drop
        ((page - 1) * limit)).take limit

/-- `TaskRepository.create`: draws the next displayId counter value
(initializing the counter document to 1 when absent), stamps `createdAt`
and clears `updatedAt`, inserts the document, then attempts the dual write.
`newId` stands for the document ID the store generates; `dualWriteSuccess`
is what `EnhancedDualWriteService.create_document` reports — on failure only
a warning is logged. -/
def create (db : Db) (task : Task) (now : Instant) (newId : String)
    (dualWriteSuccess : Bool) : Db × Task :=
  let next_number : Nat :=
    match db.counterSeq with
    | none => 1
    | some n => n + 1
  let displayId := "#" ++ toString next_number
  let task' := { task with
    displayId := some displayId
    createdAt := now
    updatedAt := none
    id := newId }
  let db1 := { db with tasks := db.tasks ++ [task'], counterSeq := some next_number }
  let db2 :=
    if dualWriteSuccess then db1
    else { db1 with log := db1.log ++ ["Failed to sync task " ++ newId ++ " to Postgres"] }
  (db2, task')

/-- `TaskRepository.update`: applies the `$set` payload (abstracted as
`set_fields`; the popped `_id`/`id` keys are reflected by preserving the
document ID) and stamps `updatedAt`, returning the post-update document;
`none` when no document matches. `dualWriteSuccess` is what
`EnhancedDualWriteService.update_document` reports — on failure only a
warning is logged. Document IDs are unique in the store, so updating every
match models `find_one_and_update`. -/
def update (db : Db) (task_id : String) (set_fields : Task → Task) (now : Instant)
    (dualWriteSuccess : Bool) : Db × Option Task :=
  match db.tasks.find? (fun t => t.id == task_id) with
  | none => (db, none)
  | some t0 =>
    let updated := { set_fields t0 with updatedAt := some now, id := t0.id }
    let db1 := { db with tasks := db.tasks.map fun t =>
        if t.id == task_id then updated else t }
    let db2 :=
      if dualWriteSuccess then db1
      else { db1 with log := db1.log ++
          ["Failed to sync task update " ++ t0.id ++ " to Postgres"] }
    (db2, some updated)

/-- `TaskRepository.delete_by_id`: looks up the live (non-deleted) document,
authorizes the creator or an assignee, deactivates the task's assignment,
then soft-deletes the document, stamping `updatedAt`/`updatedBy`, and
returns the post-update document. -/
def delete_by_id (db : Db) (task_id user_id : String) (now : Instant) :
    Except DeleteError (Db × Option Task) :=
  match db.tasks.find? (fun t => t.id == task_id && t.isDeleted == false) with
  | none => .error .taskNotFound
  | some task =>
    if user_id != task.createdBy
        && !((_get_assigned_task_ids_for_user db user_id).contains task_id) then
      .error .permissionDenied
    else
      let db1 := TaskAssignmentRepository.deactivate_by_task_id db task_id user_id
      let db2 := { db1 with tasks := db1.tasks.map fun t =>
          if t.id == task_id then
            { t with isDeleted := true, updatedAt := some now, updatedBy := some user_id }
          else t }
      .ok (db2, db2.tasks.find? fun t => t.id == task_id)

end TaskRepository

/-- The `CreateTaskAssignmentDTO` payload of the assignment service. -/
structure CreateTaskAssignmentDTO where
  task_id : String
  assignee_id : String
  user_type : String
  team_id : Option String := none
deriving DecidableEq, Repr

/-- Existence oracles for the validation lookups the assignment service
performs against the task, user and team repositories. -/
structure AssignEnv where
  taskExists : String → Bool
  userExists : String → Bool
  teamExists : String → Bool

namespace TaskAssignmentService

/-- The trailing step of `create_task_assignment`: when the (new) assignment
is to a team, an `assigned_to_team` audit-log entry is written. -/
def logAssignedToTeam (db : Db) (a : TaskAssignment) (user_id : String) : Db :=
  if a.user_type == "team" then
    { db with auditLogs := db.auditLogs ++
        [{ task_id := a.task_id, team_id := some a.assignee_id,
           action := "assigned_to_team", performed_by := user_id }] }
  else db

/-- The no-existing-assignment branch of `create_task_assignment`: inserts
the new active assignment via `TaskAssignmentRepository.create`, writing an
`assigned_to_member` audit entry when a user is assigned within a team, then
the `assigned_to_team` entry when the assignee is a team. -/
def createAndLog (db : Db) (dto : CreateTaskAssignmentDTO) (user_id : String) : Db :=
  let ta : TaskAssignment :=
    { task_id := dto.task_id, assignee_id := dto.assignee_id, user_type := dto.user_type,
      team_id := dto.team_id, is_active := true, created_by := user_id, updated_by := none }
  let db1 := (TaskAssignmentRepository.create db ta).1
  let db2 :=
    if ta.user_type == "user" && ta.team_id.isSome then
      { db1 with auditLogs := db1.auditLogs ++
          [{ task_id := ta.task_id, team_id := ta.team_id,
             action := "assigned_to_member", performed_by := user_id }] }
    else db1
  logAssignedToTeam db2 ta user_id

/-- `TaskAssignmentService.create_task_assignment`: validates task and
assignee, then updates the task's existing active assignment in place
(logging `unassigned_from_team` first if it pointed at a team) or creates a
new assignment when none is active; raised exceptions become `Except.error`. -/
def create_task_assignment (env : AssignEnv) (db : Db) (dto : CreateTaskAssignmentDTO)
    (user_id : String) : Except String (Db × TaskAssignment) :=
  if !env.taskExists dto.task_id then
    .error "TaskNotFoundException"
  else if dto.user_type == "user" && !env.userExists dto.assignee_id then
    .error "UserNotFoundException"
  else if dto.user_type == "team" && !env.teamExists dto.assignee_id then
    .error "Team not found"
  else if dto.user_type != "user" && dto.user_type != "team" then
    .error "Invalid user_type"
  else
    match TaskAssignmentRepository.get_by_task_id db dto.task_id with
    | some existing =>
      match TaskAssignmentRepository.update_assignment
          (if existing.user_type == "team" then
            { db with auditLogs := db.auditLogs ++
                [{ task_id := existing.task_id, team_id := some existing.assignee_id,
                   action := "unassigned_from_team", performed_by := user_id }] }
          else db)
          dto.task_id dto.assignee_id dto.user_type user_id with
      | (db1, some updated) => .ok (logAssignedToTeam db1 updated user_id, updated)
      | (_, none) => .error "Failed to update task assignment"
    | none =>
      .ok (createAndLog db dto user_id,
        { task_id := dto.task_id, assignee_id := dto.assignee_id, user_type := dto.user_type,
          team_id := dto.team_id, is_active := true, created_by := user_id,
          updated_by := none })

end TaskAssignmentService

/-- The one-active-assignee-per-task invariant: no task has more than one
active assignment record. -/
def atMostOneActive (db : Db) : Prop :=
  ∀ tid : String, (db.assignments.countP fun a => a.task_id == tid && a.is_active) ≤ 1

/-- A concrete validation environment in which every task, user and team
exists. -/
def envAll : AssignEnv := ⟨fun _ => true, fun _ => true, fun _ => true⟩

/-- A concrete request assigning task t1 to user u1. -/
def dtoT1U1 : CreateTaskAssignmentDTO :=
  { task_id := "t1", assignee_id := "u1", user_type := "user" }

/-- The assignment record created for `dtoT1U1` by user admin. -/
def taT1U1 : TaskAssignment :=
  { task_id := "t1", assignee_id := "u1", user_type := "user", team_id := none,
    is_active := true, created_by := "admin", updated_by := none }

/-- The store state after assigning task t1 to user u1 in the empty store. -/
def dbAfterT1U1 : Db := { assignments := [taT1U1] }

/-- An API error payload (message and code), as carried by
`GetTasksResponse.error`. -/
structure ApiError where
  message : String
  code : String
deriving DecidableEq, Repr

/-- The `GetTasksResponse` DTO; per-task DTO preparation is abstracted to the
underlying task documents. -/
structure GetTasksResponse where
  tasks : List Task := []
  links : Option LinksData := none
  error : Option ApiError := none
deriving DecidableEq, Repr

/-- The dependencies of `TaskService.get_tasks`: the membership check
(`TeamRepository.is_user_team_member` is not under `src/`; modelled from the
spec, a user is or is not a member of a team), the repository list and count
queries, and the configured maximum page size
(`DEFAULT_PAGINATION_SETTINGS.MAX_PAGE_LIMIT`). -/
structure TasksEnv where
  is_user_team_member : String → String → Bool
  listTasks : Nat → Nat → String → String → String → Option String → Option String →
    List Task
  countTasks : String → Option String → Option String → Nat
  maxLimit : Nat

namespace TaskService

/-- `TaskService.get_tasks`: validates pagination, gates team listings on
membership, then queries and paginates. The Boolean of the result records
whether a task query (`TaskRepository.list`/`count`) was performed. -/
def get_tasks (env : TasksEnv) (page limit : Nat) (sort_by order : String)
    (user_id : String) (team_id : Option String) (status_filter : Option String) :
    GetTasksResponse × Bool :=
  if page < 1 then
    ({ error := some { message := "Page must be a positive integer",
                       code := "VALIDATION_ERROR" } }, false)
  else if limit < 1 then
    ({ error := some { message := "Limit must be a positive integer",
                       code := "VALIDATION_ERROR" } }, false)
  else if env.maxLimit < limit then
    ({ error := some { message := "Maximum limit exceeded",
                       code := "VALIDATION_ERROR" } }, false)
  else if truthy team_id && !env.is_user_team_member (team_id.getD "") user_id then
    ({ error := some { message := "Only team members can view team tasks.",
                       code := "FORBIDDEN" } }, false)
  else
    let tasks := env.listTasks page limit sort_by order user_id team_id status_filter
    let total_count := env.countTasks user_id team_id status_filter
    if tasks.isEmpty then ({ tasks := [] }, true)
    else
      ({ tasks := tasks,
         links := some (_build_pagination_links page limit total_count sort_by order) },
        true)

end TaskService

/-- A concrete `get_tasks` environment: no user belongs to any team, the
repository holds no tasks, and the configured page limit is 20. -/
def envNoMember : TasksEnv :=
  { is_user_team_member := fun _ _ => false
    listTasks := fun _ _ _ _ _ _ _ => []
    countTasks := fun _ _ _ => 0
    maxLimit := 20 }

end Todo

namespace Todo

/-- Claim C2: a task with non-null `deferredDetails` whose `deferredTill` lies
strictly in the future is excluded by the default status filter; once
`deferredTill` is strictly in the past, the task satisfies the default filter
exactly when its status is not DONE. -/
theorem default_filter_hides_deferred_until_elapsed
    (t : Task) (d : DeferredDetails) (now : Instant)
    (hd : t.deferredDetails = some d) :
    (now < d.deferredTill → buildStatusFilter none now t = false) ∧
    (d.deferredTill < now →
      (buildStatusFilter none now t = true ↔ t.status ≠ TaskStatus.DONE)) := by
  constructor
  · intro hfut
    have hlt : deferredTillLt t now = false := by
      simp [deferredTillLt, hd]
      exact le_of_lt hfut
    simp [buildStatusFilter, TaskStatus.DEFERRED, TaskStatus.DONE, hd, hlt]
  · intro hpast
    simp [buildStatusFilter, TaskStatus.DEFERRED, TaskStatus.DONE, deferredTillLt, hd, hpast]

/-- Witness for C2 at a concrete task deferred until instant 10. -/
theorem default_filter_hides_deferred_until_elapsed_witness :
    ({ deferredDetails := some ⟨10⟩ } : Task).deferredDetails = some ⟨10⟩ ∧
    ((5 : Instant) < 10 →
      buildStatusFilter none 5 { deferredDetails := some ⟨10⟩ } = false) ∧
    ((10 : Instant) < 20 →
      (buildStatusFilter none 20 { deferredDetails := some ⟨10⟩ } = true ↔
        ({ deferredDetails := some ⟨10⟩ } : Task).status ≠ TaskStatus.DONE)) :=
  ⟨rfl,
    (default_filter_hides_deferred_until_elapsed { deferredDetails := some ⟨10⟩ } ⟨10⟩ 5 rfl).1,
    (default_filter_hides_deferred_until_elapsed { deferredDetails := some ⟨10⟩ } ⟨10⟩ 20 rfl).2⟩

/-- Claim C9: `TaskService._build_pagination_links` yields a next link exactly
when `page` is strictly below `ceil(total_count / limit)` — equivalently, for
positive `page` and `limit`, exactly when `page * limit < total_count` — and a
prev link exactly when `page > 1`. -/
theorem pagination_links_iff (page limit total_count : Nat) (sort_by order : String)
    (hp : 1 ≤ page) (hl : 1 ≤ limit) :
    ((TaskService._build_pagination_links page limit total_count sort_by order).next.isSome = true
        ↔ page < (total_count + limit - 1) / limit) ∧
    ((TaskService._build_pagination_links page limit total_count sort_by order).next.isSome = true
        ↔ page * limit < total_count) ∧
    ((TaskService._build_pagination_links page limit total_count sort_by order).prev.isSome = true
        ↔ 1 < page) := by
  have key : page < (total_count + limit - 1) / limit ↔ page * limit < total_count := by
    rw [Nat.lt_iff_add_one_le, Nat.le_div_iff_mul_le hl, Nat.add_one_mul]
    generalize page * limit = k
    omega
  refine ⟨?_, ?_, ?_⟩ <;>
    simp only [TaskService._build_pagination_links] <;>
    split <;>
    simp_all [key]

/-- Witness for C9 at page 2, limit 3, total count 10: a next link exists
(2 * 3 < 10) and a prev link exists (2 > 1). -/
theorem pagination_links_iff_witness :
    (1 ≤ 2 ∧ 1 ≤ 3) ∧
    (((TaskService._build_pagination_links 2 3 10 "updatedAt" "desc").next.isSome = true
         ↔ 2 < (10 + 3 - 1) / 3) ∧
     ((TaskService._build_pagination_links 2 3 10 "updatedAt" "desc").next.isSome = true
         ↔ 2 * 3 < 10) ∧
     ((TaskService._build_pagination_links 2 3 10 "updatedAt" "desc").prev.isSome = true
         ↔ 1 < 2)) :=
  ⟨⟨by decide, by decide⟩,
    pagination_links_iff 2 3 10 "updatedAt" "desc" (by decide) (by decide)⟩

/-- Claim C3: the DONE status filter contains no condition on the task's
status field: it is exactly the "not currently deferred" predicate
(`deferredDetails` null, or `deferredTill` strictly before now), so its value
is unchanged under any change of the task's status. -/
theorem done_filter_ignores_status (t : Task) (s : String) (now : Instant) :
    buildStatusFilter (some TaskStatus.DONE) now t
        = (t.deferredDetails.isNone || deferredTillLt t now) ∧
    buildStatusFilter (some TaskStatus.DONE) now { t with status := s }
        = buildStatusFilter (some TaskStatus.DONE) now t := by
  constructor
  · simp [buildStatusFilter, TaskStatus.DONE, TaskStatus.DEFERRED]
  · simp [buildStatusFilter, TaskStatus.DONE, TaskStatus.DEFERRED, deferredTillLt]

/-- Helper: writing the `assigned_to_team` audit entry leaves the assignment
collection unchanged. -/
theorem logAssignedToTeam_assignments (db : Db) (a : TaskAssignment) (uid : String) :
    (TaskAssignmentService.logAssignedToTeam db a uid).assignments = db.assignments := by
  unfold TaskAssignmentService.logAssignedToTeam
  split <;> rfl

/-- Helper: writing the `assigned_to_team` audit entry keeps every existing
audit-log entry. -/
theorem logAssignedToTeam_mem_auditLogs (db : Db) (a : TaskAssignment) (uid : String)
    (x : AuditLog) (hx : x ∈ db.auditLogs) :
    x ∈ (TaskAssignmentService.logAssignedToTeam db a uid).auditLogs := by
  unfold TaskAssignmentService.logAssignedToTeam
  split
  · exact List.mem_append_left _ hx
  · exact hx

/-- Helper: the create branch of the assignment service appends exactly one
new active assignment record for the requested task and assignee. -/
theorem createAndLog_assignments (db : Db) (dto : CreateTaskAssignmentDTO) (uid : String) :
    (TaskAssignmentService.createAndLog db dto uid).assignments =
      db.assignments ++
        [{ task_id := dto.task_id, assignee_id := dto.assignee_id, user_type := dto.user_type,
           team_id := dto.team_id, is_active := true, created_by := uid,
           updated_by := none }] := by
  simp only [TaskAssignmentService.createAndLog]
  rw [logAssignedToTeam_assignments]
  split <;> rfl

/-- Helper: when `update_assignment` succeeds it has re-pointed the task's
active assignment in place: the number of assignment records, the audit log,
the task/team collections and, per task, the number of active assignment
records are all unchanged, and the returned record carries the new assignee. -/
theorem update_assignment_spec (db : Db) (tid aid uty uid : String) (db1 : Db)
    (u : TaskAssignment)
    (h : TaskAssignmentRepository.update_assignment db tid aid uty uid = (db1, some u)) :
    db1.assignments.length = db.assignments.length ∧
    db1.auditLogs = db.auditLogs ∧
    u.assignee_id = aid ∧ u.user_type = uty ∧
    ∀ t : String, db1.assignments.countP (fun x => x.task_id == t && x.is_active)
        = db.assignments.countP (fun x => x.task_id == t && x.is_active) := by
  unfold TaskAssignmentRepository.update_assignment at h
  split at h
  · simp at h
  · rw [Prod.mk.injEq] at h
    obtain ⟨hdb, hfind⟩ := h
    subst hdb
    have hcnt : ∀ t : String,
        ((db.assignments.map fun a =>
            if a.task_id == tid && a.is_active then
              { a with assignee_id := aid, user_type := uty, updated_by := some uid }
            else a).countP fun x => x.task_id == t && x.is_active)
          = db.assignments.countP (fun x => x.task_id == t && x.is_active) := by
      intro t
      rw [List.countP_map]
      refine List.countP_congr ?_
      intro x _
      by_cases hx : (x.task_id == tid && x.is_active) = true
      · simp [Function.comp, hx]
      · simp [Function.comp, hx]
    refine ⟨by simp, rfl, ?_, ?_, hcnt⟩ <;>
    · have hp := List.find?_some hfind
      have hm := List.mem_of_find?_eq_some hfind
      obtain ⟨x, hxmem, hxeq⟩ := List.mem_map.mp hm
      by_cases hx : (x.task_id == tid && x.is_active) = true
      · rw [if_pos hx] at hxeq
        rw [← hxeq]
      · rw [if_neg hx] at hxeq
        rw [← hxeq] at hp
        exact absurd hp (by simp_all)

/-- Helper: the empty-list early-outs in `_get_assigned_task_ids_for_user`
are redundant — the function equals its guard-free final expression. -/
theorem assigned_task_ids_eq (db : Db) (user_id : String) :
    TaskRepository._get_assigned_task_ids_for_user db user_id =
      ((db.assignments.filter fun a =>
          a.assignee_id == user_id && a.user_type == "user" && a.is_active).map (·.task_id))
      ++ ((db.assignments.filter fun a =>
            ((db.teams.filter fun tm =>
                ((db.userTeams.filter fun ut => ut.user_id == user_id).map
                    (·.team_id)).contains tm.id
                  && !tm.is_deleted && tm.poc_id == user_id).map (·.id)).contains a.assignee_id
            && a.user_type == "team" && a.is_active).map (·.task_id)) := by
  unfold TaskRepository._get_assigned_task_ids_for_user
      TaskAssignmentRepository.get_by_assignee_id
  simp only []
  split
  · rename_i h1
    rw [List.isEmpty_iff] at h1
    rw [h1]
    simp
  · split
    · rename_i h2
      rw [List.isEmpty_iff] at h2
      rw [h2]
      simp
    · rfl

/-- Claim C4: `_get_assigned_task_ids_for_user` returns exactly the union of
the user's direct active user-type assignments and the active team-type
assignments of the non-deleted teams the user belongs to and is
point-of-contact (POC) of; a team the user merely belongs to without being
its POC contributes nothing. -/
theorem assigned_task_ids_characterization (db : Db) (user_id tid : String) :
    tid ∈ TaskRepository._get_assigned_task_ids_for_user db user_id ↔
      ((∃ a ∈ db.assignments, a.task_id = tid ∧ a.assignee_id = user_id ∧
          a.user_type = "user" ∧ a.is_active = true) ∨
       (∃ a ∈ db.assignments, a.task_id = tid ∧ a.user_type = "team" ∧
          a.is_active = true ∧
          ∃ tm ∈ db.teams, tm.id = a.assignee_id ∧ tm.is_deleted = false ∧
            tm.poc_id = user_id ∧
            ∃ ut ∈ db.userTeams, ut.user_id = user_id ∧ ut.team_id = tm.id)) := by
  rw [assigned_task_ids_eq]
  simp only [List.mem_append, List.mem_map, List.mem_filter, Bool.and_eq_true,
    beq_iff_eq, Bool.not_eq_true', List.contains_iff_exists_mem_beq]
  constructor
  · rintro (⟨a, ⟨ha, ⟨h1, h2⟩, h3⟩, h4⟩ |
      ⟨a, ⟨ha, ⟨⟨x, ⟨tm, ⟨htm, ⟨⟨y, ⟨ut, ⟨hut, hu⟩, huty⟩, htmy⟩, hd⟩, hp⟩, htmx⟩, hax⟩,
        h2⟩, h3⟩, h4⟩)
    · exact Or.inl ⟨a, ha, h4, h1, h2, h3⟩
    · exact Or.inr ⟨a, ha, h4, h2, h3, tm, htm, htmx.trans hax.symm, hd, hp, ut, hut, hu,
        huty.trans htmy.symm⟩
  · rintro (⟨a, ha, h4, h1, h2, h3⟩ |
      ⟨a, ha, h4, h2, h3, tm, htm, he, hd, hp, ut, hut, hu, htid⟩)
    · exact Or.inl ⟨a, ⟨ha, ⟨h1, h2⟩, h3⟩, h4⟩
    · exact Or.inr ⟨a, ⟨ha, ⟨⟨a.assignee_id,
        ⟨tm, ⟨htm, ⟨⟨tm.id, ⟨ut, ⟨hut, hu⟩, htid⟩, rfl⟩, hd⟩, hp⟩, he⟩, rfl⟩, h2⟩, h3⟩, h4⟩

/-- Claim C1: a completed `create_task_assignment` call preserves the
one-active-assignment-per-task invariant; when the task already had an active
assignment the record set keeps its size (the record is updated in place to
the new assignee) and, if the previous assignee was a team, an
`unassigned_from_team` audit entry is in the log afterwards; only when no
active assignment existed is a new record appended. -/
theorem create_task_assignment_single_active
    (env : AssignEnv) (db : Db) (dto : CreateTaskAssignmentDTO) (user_id : String)
    (db' : Db) (a : TaskAssignment)
    (hinv : atMostOneActive db)
    (hok : TaskAssignmentService.create_task_assignment env db dto user_id
        = .ok (db', a)) :
    atMostOneActive db' ∧
    (∀ ex, TaskAssignmentRepository.get_by_task_id db dto.task_id = some ex →
        db'.assignments.length = db.assignments.length ∧
        a.assignee_id = dto.assignee_id ∧ a.user_type = dto.user_type ∧
        (ex.user_type = "team" →
          ({ task_id := ex.task_id, team_id := some ex.assignee_id,
             action := "unassigned_from_team", performed_by := user_id } : AuditLog)
            ∈ db'.auditLogs)) ∧
    (TaskAssignmentRepository.get_by_task_id db dto.task_id = none →
        db'.assignments = db.assignments ++ [a] ∧
        a.assignee_id = dto.assignee_id ∧ a.user_type = dto.user_type) := by
  unfold TaskAssignmentService.create_task_assignment at hok
  split at hok
  · simp at hok
  split at hok
  · simp at hok
  split at hok
  · simp at hok
  split at hok
  · simp at hok
  split at hok
  case _ existing heq =>
    rcases hup : TaskAssignmentRepository.update_assignment
        (if existing.user_type == "team" then
          { db with auditLogs := db.auditLogs ++
              [{ task_id := existing.task_id, team_id := some existing.assignee_id,
                 action := "unassigned_from_team", performed_by := user_id }] }
        else db)
        dto.task_id dto.assignee_id dto.user_type user_id with ⟨db1, u⟩
    rw [hup] at hok
    cases u with
    | none => simp at hok
    | some updated =>
      simp only [Except.ok.injEq, Prod.mk.injEq] at hok
      obtain ⟨hdb', rfl⟩ := hok
      subst hdb'
      obtain ⟨hlen, hau, hassignee, hutype, hcnt⟩ :=
        update_assignment_spec _ _ _ _ _ _ _ hup
      refine ⟨?_, ?_, ?_⟩
      · intro t
        rw [logAssignedToTeam_assignments, hcnt t]
        split <;> exact hinv t
      · intro ex hex
        rw [heq] at hex
        injection hex with hex
        subst hex
        refine ⟨?_, hassignee, hutype, ?_⟩
        · rw [logAssignedToTeam_assignments, hlen]
          split <;> rfl
        · intro hteamtype
          apply logAssignedToTeam_mem_auditLogs
          rw [hau, if_pos (by simp [hteamtype])]
          exact List.mem_append_right _ (by simp)
      · intro hnone
        rw [heq] at hnone
        exact absurd hnone (by simp)
  case _ heq =>
    simp only [Except.ok.injEq, Prod.mk.injEq] at hok
    obtain ⟨hdb', rfl⟩ := hok
    subst hdb'
    have hno : ∀ x ∈ db.assignments, ¬(x.task_id == dto.task_id && x.is_active) = true := by
      intro x hx
      exact List.find?_eq_none.mp heq x hx
    refine ⟨?_, ?_, ?_⟩
    · intro t
      rw [createAndLog_assignments, List.countP_append]
      by_cases ht : dto.task_id = t
      · subst ht
        have hzero : db.assignments.countP
            (fun x => x.task_id == dto.task_id && x.is_active) = 0 :=
          List.countP_eq_zero.mpr hno
        rw [hzero]
        simp [List.countP_cons]
      · have hone : List.countP (fun x => x.task_id == t && x.is_active)
            [({ task_id := dto.task_id, assignee_id := dto.assignee_id,
                user_type := dto.user_type, team_id := dto.team_id, is_active := true,
                created_by := user_id, updated_by := none } : TaskAssignment)] = 0 := by
          simp [List.countP_cons, ht]
        rw [hone]
        exact hinv t
    · intro ex hex
      rw [heq] at hex
      exact absurd hex (by simp)
    · intro _
      exact ⟨createAndLog_assignments db dto user_id, rfl, rfl⟩

/-- Claim C8: the updatedAt-sort branch of `TaskRepository.list` ranks each
matching task by `TaskRepository.lastActivity` — `updatedAt`, with `createdAt` in its place
for never-updated tasks — descending for order desc and ascending otherwise,
and only then applies `$skip (page-1)*limit` and `$limit limit`. -/
theorem list_updatedAt_sorted_spec (db : Db) (page limit : Nat) (order : String)
    (user_id team_id : Option String) (status_filter : Option String)
    (assignee_ids : List String) (now : Instant) :
    ∃ sorted : List Task,
      sorted.Perm (db.tasks.filter
        ((TaskRepository.listQueryFilter db user_id team_id status_filter assignee_ids now).getD
          fun _ => false)) ∧
      (order = SORT_ORDER_DESC →
        sorted.Pairwise fun a b => TaskRepository.lastActivity b ≤ TaskRepository.lastActivity a) ∧
      (order ≠ SORT_ORDER_DESC →
        sorted.Pairwise fun a b => TaskRepository.lastActivity a ≤ TaskRepository.lastActivity b) ∧
      TaskRepository.listUpdatedAtSorted db page limit order user_id team_id status_filter
          assignee_ids now
        = (sorted.drop ((page - 1) * limit)).take limit := by
  cases hq : TaskRepository.listQueryFilter db user_id team_id status_filter assignee_ids now with
  | none =>
    exact ⟨[], by simp, by simp, by simp,
      by simp [TaskRepository.listUpdatedAtSorted, hq]⟩
  | some f =>
    have htrans : ∀ a b c, TaskRepository.lastActivityLe order a b → TaskRepository.lastActivityLe order b c →
        TaskRepository.lastActivityLe order a c := by
      unfold TaskRepository.lastActivityLe
      split
      · intro a b c hab hbc
        simp only [decide_eq_true_eq] at *
        exact le_trans hbc hab
      · intro a b c hab hbc
        simp only [decide_eq_true_eq] at *
        exact le_trans hab hbc
    have htotal : ∀ a b, TaskRepository.lastActivityLe order a b || TaskRepository.lastActivityLe order b a := by
      unfold TaskRepository.lastActivityLe
      split <;>
      · intro a b
        simp only [Bool.or_eq_true, decide_eq_true_eq]
        exact le_total _ _
    refine ⟨(db.tasks.filter f).mergeSort (TaskRepository.lastActivityLe order), ?_, ?_, ?_, ?_⟩
    · simpa [hq] using List.mergeSort_perm (db.tasks.filter f) (TaskRepository.lastActivityLe order)
    · intro hdesc
      refine (List.sorted_mergeSort htrans htotal (db.tasks.filter f)).imp ?_
      intro a b h
      have hb : TaskRepository.lastActivityLe order a b = true := h
      rw [TaskRepository.lastActivityLe, if_pos (by simp [hdesc])] at hb
      simpa using hb
    · intro hne
      refine (List.sorted_mergeSort htrans htotal (db.tasks.filter f)).imp ?_
      intro a b h
      have hb : TaskRepository.lastActivityLe order a b = true := h
      rw [TaskRepository.lastActivityLe, if_neg (by simp [hne])] at hb
      simpa using hb
    · simp [TaskRepository.listUpdatedAtSorted, hq]

/-- Claim C6: `TaskRepository.create` and `TaskRepository.update` return the
created/updated task and leave the task collection identical whether the
dual write to the secondary store reports success or failure; the failure is
neither rolled back nor re-raised, and the returned document is in the
collection. -/
theorem dual_write_failure_not_rolled_back
    (db : Db) (task : Task) (now : Instant) (newId task_id : String)
    (set_fields : Task → Task) :
    ((TaskRepository.create db task now newId false).2
        = (TaskRepository.create db task now newId true).2 ∧
     (TaskRepository.create db task now newId false).1.tasks
        = (TaskRepository.create db task now newId true).1.tasks ∧
     (TaskRepository.create db task now newId false).2
        ∈ (TaskRepository.create db task now newId false).1.tasks) ∧
    ((TaskRepository.update db task_id set_fields now false).2
        = (TaskRepository.update db task_id set_fields now true).2 ∧
     (TaskRepository.update db task_id set_fields now false).1.tasks
        = (TaskRepository.update db task_id set_fields now true).1.tasks ∧
     ∀ u, (TaskRepository.update db task_id set_fields now false).2 = some u →
        u ∈ (TaskRepository.update db task_id set_fields now false).1.tasks) := by
  refine ⟨⟨rfl, rfl, ?_⟩, ?_⟩
  · simp only [TaskRepository.create]
    exact List.mem_append_right _ (by simp)
  · cases hf : db.tasks.find? (fun t => t.id == task_id) with
    | none =>
      refine ⟨?_, ?_, ?_⟩ <;> simp only [TaskRepository.update, hf]
      · intro u hu
        exact absurd hu (by simp)
    | some t0 =>
      have hsel := List.find?_some hf
      refine ⟨?_, ?_, ?_⟩
      · simp [TaskRepository.update, hf]
      · simp [TaskRepository.update, hf]
      · intro u hu
        simp only [TaskRepository.update, hf] at hu ⊢
        rw [Option.some.injEq] at hu
        subst hu
        exact List.mem_map.mpr
          ⟨t0, List.mem_of_find?_eq_some hf, by rw [if_pos hsel]⟩

/-- Witness for C6 at a concrete store: creating a task in the empty store
returns the same document whether or not the dual write succeeds, and the
document is in the collection. -/
theorem dual_write_failure_not_rolled_back_witness :
    ((TaskRepository.create {} { title := "a task" } 3 "id1" false).2
        = (TaskRepository.create {} { title := "a task" } 3 "id1" true).2) ∧
    ((TaskRepository.create {} { title := "a task" } 3 "id1" false).2
        ∈ (TaskRepository.create {} { title := "a task" } 3 "id1" false).1.tasks) :=
  ⟨(dual_write_failure_not_rolled_back {} { title := "a task" } 3 "id1" "t9"
      (fun t => t)).1.1,
   (dual_write_failure_not_rolled_back {} { title := "a task" } 3 "id1" "t9"
      (fun t => t)).1.2.2⟩

/-- Claim C7: `delete_by_id` raises `TaskNotFoundException` when no live task
matches, raises `PermissionError` when the requester is neither the creator
nor assigned to the task, and otherwise deactivates the task's assignment
and soft-deletes the task, stamping `updatedAt`/`updatedBy` and returning
the updated document. -/
theorem delete_by_id_spec (db : Db) (task_id user_id : String) (now : Instant) :
    (db.tasks.find? (fun t => t.id == task_id && t.isDeleted == false) = none →
      TaskRepository.delete_by_id db task_id user_id now = .error .taskNotFound) ∧
    (∀ task, db.tasks.find? (fun t => t.id == task_id && t.isDeleted == false) = some task →
      ((user_id ≠ task.createdBy ∧
          task_id ∉ TaskRepository._get_assigned_task_ids_for_user db user_id) →
        TaskRepository.delete_by_id db task_id user_id now = .error .permissionDenied) ∧
      ((user_id = task.createdBy ∨
          task_id ∈ TaskRepository._get_assigned_task_ids_for_user db user_id) →
        ∃ db' t', TaskRepository.delete_by_id db task_id user_id now = .ok (db', some t') ∧
          t'.id = task_id ∧ t'.isDeleted = true ∧ t'.updatedAt = some now ∧
          t'.updatedBy = some user_id ∧ t' ∈ db'.tasks ∧
          (∀ a ∈ db'.assignments, a.task_id = task_id → a.is_active = false))) := by
  constructor
  · intro hf
    simp only [TaskRepository.delete_by_id, hf]
  · intro task hf
    constructor
    · intro ⟨hne, hnotin⟩
      simp only [TaskRepository.delete_by_id, hf]
      rw [if_pos]
      simp only [Bool.and_eq_true, bne_iff_ne, ne_eq, Bool.not_eq_true']
      exact ⟨hne, by simpa using hnotin⟩
    · intro hauth
      simp only [TaskRepository.delete_by_id, hf]
      have hcond : (user_id != task.createdBy
          && !((TaskRepository._get_assigned_task_ids_for_user db user_id).contains task_id))
            = false := by
        rcases hauth with h | h
        · simp [h]
        · have hc : (TaskRepository._get_assigned_task_ids_for_user db user_id).contains
              task_id = true :=
            List.contains_iff_exists_mem_beq.mpr ⟨task_id, h, by simp⟩
          simp only [hc, Bool.not_true, Bool.and_false]
      rw [if_neg (ne_true_of_eq_false hcond)]
      have hsel := List.find?_some hf
      have htid : task.id = task_id := by
        simp only [Bool.and_eq_true, beq_iff_eq] at hsel
        exact hsel.1
      have hexists : ∃ t ∈ ((TaskAssignmentRepository.deactivate_by_task_id db task_id
            user_id).tasks.map fun t => if t.id == task_id then
              { t with isDeleted := true, updatedAt := some now, updatedBy := some user_id }
            else t), (t.id == task_id) = true := by
        refine ⟨if (task.id == task_id) = true then
            { task with isDeleted := true, updatedAt := some now, updatedBy := some user_id }
          else task, List.mem_map.mpr ⟨task, List.mem_of_find?_eq_some hf, rfl⟩, ?_⟩
        rw [if_pos (by simp [htid])]
        simp [htid]
      obtain ⟨t', ht'⟩ := Option.isSome_iff_exists.mp ((List.find?_isSome ..).mpr hexists)
      have hmm := List.mem_of_find?_eq_some ht'
      have hpt := List.find?_some ht'
      obtain ⟨x, hxmem, hxeq⟩ := List.mem_map.mp hmm
      have hxid : (x.id == task_id) = true := by
        by_cases hx : (x.id == task_id) = true
        · exact hx
        · rw [if_neg hx] at hxeq
          rw [← hxeq] at hpt
          exact absurd hpt hx
      rw [if_pos hxid] at hxeq
      refine ⟨_, t', by rw [ht'], by simpa using hpt, ?_, ?_, ?_,
        List.mem_of_find?_eq_some ht', ?_⟩
      · rw [← hxeq]
      · rw [← hxeq]
      · rw [← hxeq]
      · intro a ha hat
        obtain ⟨y, hymem, hyeq⟩ := List.mem_map.mp ha
        by_cases hy : (y.task_id == task_id && y.is_active) = true
        · rw [if_pos hy] at hyeq
          rw [← hyeq]
        · rw [if_neg hy] at hyeq
          subst hyeq
          simp only [Bool.and_eq_true, beq_iff_eq, not_and] at hy
          exact Bool.not_eq_true _ ▸ hy hat

/-- Witness for C7: in a store with one live task t1 created by u1, a
stranger's delete attempt is rejected and no live task named t2 exists. -/
theorem delete_by_id_spec_witness :
    (({ tasks := [{ id := "t1", createdBy := "u1" }] } : Db).tasks.find?
        (fun t => t.id == "t2" && t.isDeleted == false) = none ∧
      TaskRepository.delete_by_id { tasks := [{ id := "t1", createdBy := "u1" }] } "t2" "u1" 9
        = .error .taskNotFound) ∧
    (("u2" ≠ "u1" ∧ "t1" ∉ TaskRepository._get_assigned_task_ids_for_user
          { tasks := [{ id := "t1", createdBy := "u1" }] } "u2") →
      TaskRepository.delete_by_id { tasks := [{ id := "t1", createdBy := "u1" }] } "t1" "u2" 9
        = .error .permissionDenied) :=
  ⟨⟨by decide,
     (delete_by_id_spec { tasks := [{ id := "t1", createdBy := "u1" }] } "t2" "u1" 9).1
       (by decide)⟩,
   fun h =>
     ((delete_by_id_spec { tasks := [{ id := "t1", createdBy := "u1" }] } "t1" "u2" 9).2
       { id := "t1", createdBy := "u1" } (by decide)).1 h⟩

/-- Witness for C1: assigning task t1 to user u1 in the empty store succeeds,
preserves the invariant, and appends exactly one active assignment record. -/
theorem create_task_assignment_single_active_witness :
    (atMostOneActive {} ∧
      TaskAssignmentService.create_task_assignment envAll {} dtoT1U1 "admin"
        = .ok (dbAfterT1U1, taT1U1)) ∧
    (atMostOneActive dbAfterT1U1 ∧
      (∀ ex, TaskAssignmentRepository.get_by_task_id ({} : Db) "t1" = some ex →
          dbAfterT1U1.assignments.length = ({} : Db).assignments.length ∧
          taT1U1.assignee_id = "u1" ∧ taT1U1.user_type = "user" ∧
          (ex.user_type = "team" →
            ({ task_id := ex.task_id, team_id := some ex.assignee_id,
               action := "unassigned_from_team", performed_by := "admin" } : AuditLog)
              ∈ dbAfterT1U1.auditLogs)) ∧
      (TaskAssignmentRepository.get_by_task_id ({} : Db) "t1" = none →
          dbAfterT1U1.assignments = ({} : Db).assignments ++ [taT1U1] ∧
          taT1U1.assignee_id = "u1" ∧ taT1U1.user_type = "user")) :=
  ⟨⟨fun _ => Nat.zero_le 1, rfl⟩,
    create_task_assignment_single_active envAll {} dtoT1U1 "admin" dbAfterT1U1 taT1U1
      (fun _ => Nat.zero_le 1) rfl⟩

/-- Claim C10: a task whose `deferredTill` equals the current instant exactly
is excluded by every branch of `_build_status_filter`: the DEFERRED branch
requires a strictly future `deferredTill`, the DONE and default branches a
strictly past one. -/
theorem boundary_deferredTill_matches_no_branch
    (t : Task) (d : DeferredDetails) (now : Instant)
    (hd : t.deferredDetails = some d) (hb : d.deferredTill = now) :
    ∀ statusFilter : Option String, buildStatusFilter statusFilter now t = false := by
  intro statusFilter
  unfold buildStatusFilter
  split
  · simp [deferredTillGt, hd, hb]
  · split
    · simp [deferredTillLt, hd, hb]
    · simp [deferredTillLt, hd, hb]

/-- Witness for C10: a task deferred till instant 7, checked at instant 7,
for all five documented status-filter values and the absent filter. -/
theorem boundary_deferredTill_matches_no_branch_witness :
    ({ deferredDetails := some ⟨7⟩ } : Task).deferredDetails = some ⟨7⟩ ∧
    (⟨7⟩ : DeferredDetails).deferredTill = 7 ∧
    buildStatusFilter none 7 { deferredDetails := some ⟨7⟩ } = false ∧
    buildStatusFilter (some TaskStatus.DEFERRED) 7 { deferredDetails := some ⟨7⟩ } = false ∧
    buildStatusFilter (some TaskStatus.DONE) 7 { deferredDetails := some ⟨7⟩ } = false ∧
    buildStatusFilter (some TaskStatus.TODO) 7 { deferredDetails := some ⟨7⟩ } = false :=
  ⟨rfl, rfl,
    boundary_deferredTill_matches_no_branch _ ⟨7⟩ 7 rfl rfl none,
    boundary_deferredTill_matches_no_branch _ ⟨7⟩ 7 rfl rfl _,
    boundary_deferredTill_matches_no_branch _ ⟨7⟩ 7 rfl rfl _,
    boundary_deferredTill_matches_no_branch _ ⟨7⟩ 7 rfl rfl _⟩

/-- Counterexample to C5 as stated: a call with a non-empty team_id and a
requester who is not a member, but with page 0, returns a VALIDATION_ERROR
response and not FORBIDDEN — pagination validation runs before the
membership gate. -/
theorem get_tasks_forbidden_counterexample :
    envNoMember.is_user_team_member "team1" "u1" = false ∧
    (TaskService.get_tasks envNoMember 0 10 "updatedAt" "desc" "u1" (some "team1")
        none).1.error
      = some { message := "Page must be a positive integer", code := "VALIDATION_ERROR" } ∧
    ¬ ((TaskService.get_tasks envNoMember 0 10 "updatedAt" "desc" "u1" (some "team1")
          none).1.error
        = some { message := "Only team members can view team tasks.",
                 code := "FORBIDDEN" }) :=
  ⟨rfl, rfl, by decide⟩

/-- Claim C5 (amended): for valid pagination parameters (page and limit at
least 1, limit within the configured maximum), a `get_tasks` call with a
non-empty team_id whose requester is not a member of that team returns an
empty task list, no pagination links and a FORBIDDEN error, and performs no
task query. -/
theorem get_tasks_forbidden_for_non_member (env : TasksEnv) (page limit : Nat)
    (sort_by order user_id : String) (team_id : Option String)
    (status_filter : Option String) (tid : String)
    (hp : 1 ≤ page) (hl : 1 ≤ limit) (hmax : limit ≤ env.maxLimit)
    (ht : team_id = some tid) (hne : tid ≠ "")
    (hmem : env.is_user_team_member tid user_id = false) :
    TaskService.get_tasks env page limit sort_by order user_id team_id status_filter
      = ({ tasks := [], links := none,
           error := some { message := "Only team members can view team tasks.",
                           code := "FORBIDDEN" } }, false) := by
  subst ht
  unfold TaskService.get_tasks
  rw [if_neg (by omega), if_neg (by omega), if_neg (by omega), if_pos]
  simp [truthy, hne, hmem]

/-- Witness for the amended C5 at page 1, limit 10, team team1, user u1 in
the concrete no-membership environment. -/
theorem get_tasks_forbidden_for_non_member_witness :
    (1 ≤ 1 ∧ 1 ≤ 10 ∧ 10 ≤ envNoMember.maxLimit ∧
      (some "team1" : Option String) = some "team1" ∧ "team1" ≠ "" ∧
      envNoMember.is_user_team_member "team1" "u1" = false) ∧
    TaskService.get_tasks envNoMember 1 10 "updatedAt" "desc" "u1" (some "team1") none
      = ({ tasks := [], links := none,
           error := some { message := "Only team members can view team tasks.",
                           code := "FORBIDDEN" } }, false) :=
  ⟨⟨by decide, by decide, by decide, rfl, by decide, rfl⟩,
    get_tasks_forbidden_for_non_member envNoMember 1 10 "updatedAt" "desc" "u1"
      (some "team1") none "team1" (by decide) (by decide) (by decide) rfl
      (by decide) rfl⟩

end Todo
